import Mathlib

/-!
Verification of the Tirtha administrative layer (`tirtha_bk/tirtha/admin.py`)
against its natural-language specification.

The admin layer configures Django `ModelAdmin` classes over the persisted
schema (Mesh, Contributor, Contribution, Image, Run, ARK).  We embed:

* the table rows as Lean structures (scalar fields as `String`, boolean
  flags as `Bool`, nullable timestamps as `Option String`);
* a bulk action `queryset.update(field=value)` as a map over the rows that
  match the queryset predicate, returning the updated table together with
  the number of matched rows (Django's return value of `update`);
* a Django admin form save as a fold over the *editable* fields of the
  admin class — the flattened `fieldsets` field list minus the
  `readonly_fields` — applying the posted value to each editable model
  field and leaving every other field of the row alone;
* the inline configurations (`can_delete`, attached model) and the
  deletion processing of a Mesh change page;
* the displayed counters (`image_count`, `images_good_count`) as the
  corresponding relational queries.

The run-orchestration core (models and state machine) is not part of the
visible source; for the single claim about it we model the Run State
Machine from the spec (see `RunSM` below).
-/

namespace Tirtha

/-- A row of the `Image` table, as surfaced by `ImageAdmin`. -/
structure Image where
  ID : String
  contribution : String
  created_at : String
  image : String
  label : String
  remark : String
deriving DecidableEq, Repr, Inhabited

/-- A row of the `Contribution` table, as surfaced by `ContributionAdmin`. -/
structure Contribution where
  ID : String
  mesh : String
  contributor : String
  contributed_at : String
  processed : Bool
  processed_at : Option String
deriving DecidableEq, Repr, Inhabited

/-- A row of the `Contributor` table, as surfaced by `ContributorAdmin`. -/
structure Contributor where
  ID : String
  created_at : String
  updated_at : String
  name : String
  email : String
  banned : Bool
  ban_reason : String
deriving DecidableEq, Repr, Inhabited

/-- A row of the `Mesh` table, as surfaced by `MeshAdmin`. -/
structure Mesh where
  ID : String
  verbose_id : String
  created_at : String
  updated_at : String
  reconstructed_at : Option String
  status : String
  completed : Bool
  hidden : Bool
  name : String
  country : String
  state : String
  district : String
  description : String
  center_image : String
  denoise : String
  rotaZ : String
  rotaX : String
  rotaY : String
  minObsAng : String
  orientMesh : String
  thumbnail : String
  preview : String
deriving DecidableEq, Repr, Inhabited

/-- A row of the `Run` table, as surfaced by `RunAdmin`.  `images` and
`contributors` are the frozen many-to-many snapshots shown by the run
inlines. -/
structure Run where
  ID : String
  ark : Option String
  mesh : String
  status : String
  started_at : String
  ended_at : Option String
  directory : String
  rotaZ : String
  rotaX : String
  rotaY : String
  images : List String
  contributors : List String
deriving DecidableEq, Repr, Inhabited

/-- A row of the `ARK` table, as surfaced by `ARKAdmin`. -/
structure ARK where
  ark : String
  run : String
  naan : String
  shoulder : String
  assigned_name : String
  created_at : String
  url : String
  metadata : String
  commitment : String
deriving DecidableEq, Repr, Inhabited

/-- `queryset.update(...)` over a table: apply `set` to every row matched by
the queryset predicate `q` and return the new table with the number of
matched rows (Django returns the count of rows updated). -/
def bulkUpdate (q : α → Bool) (set : α → α) (rows : List α) : List α × Nat :=
  (rows.map (fun r => if q r then set r else r), (rows.filter q).length)

namespace MeshAdmin

/-- `MeshAdmin.mark_completed`: `queryset.update(completed=True)`. -/
def mark_completed (q : Mesh → Bool) (rows : List Mesh) : List Mesh × Nat :=
  bulkUpdate q (fun m => { m with completed := true }) rows

/-- `MeshAdmin.mark_incomplete`: `queryset.update(completed=False)`. -/
def mark_incomplete (q : Mesh → Bool) (rows : List Mesh) : List Mesh × Nat :=
  bulkUpdate q (fun m => { m with completed := false }) rows

/-- `MeshAdmin.mark_hidden`: `queryset.update(hidden=True)`. -/
def mark_hidden (q : Mesh → Bool) (rows : List Mesh) : List Mesh × Nat :=
  bulkUpdate q (fun m => { m with hidden := true }) rows

/-- `MeshAdmin.mark_not_hidden`: `queryset.update(hidden=False)`. -/
def mark_not_hidden (q : Mesh → Bool) (rows : List Mesh) : List Mesh × Nat :=
  bulkUpdate q (fun m => { m with hidden := false }) rows

end MeshAdmin

namespace ContributorAdmin

/-- `ContributorAdmin.ban_contributors`: `queryset.update(banned=True)`. -/
def ban_contributors (q : Contributor → Bool) (rows : List Contributor) :
    List Contributor × Nat :=
  bulkUpdate q (fun c => { c with banned := true }) rows

/-- `ContributorAdmin.unban_contributors`: `queryset.update(banned=False)`. -/
def unban_contributors (q : Contributor → Bool) (rows : List Contributor) :
    List Contributor × Nat :=
  bulkUpdate q (fun c => { c with banned := false }) rows

end ContributorAdmin

namespace ImageAdmin

/-- `ImageAdmin.mark_good`: `queryset.update(label="good")`. -/
def mark_good (q : Image → Bool) (rows : List Image) : List Image × Nat :=
  bulkUpdate q (fun i => { i with label := "good" }) rows

/-- `ImageAdmin.mark_bad`: `queryset.update(label="bad")`. -/
def mark_bad (q : Image → Bool) (rows : List Image) : List Image × Nat :=
  bulkUpdate q (fun i => { i with label := "bad" }) rows

/-- `ImageAdmin.mark_nsfw`: `queryset.update(label="nsfw")`. -/
def mark_nsfw (q : Image → Bool) (rows : List Image) : List Image × Nat :=
  bulkUpdate q (fun i => { i with label := "nsfw" }) rows

end ImageAdmin

/-- The data a Django admin change form posts back: a string value and a
checkbox value for each field name. -/
structure FormData where
  str : String → String
  checkbox : String → Bool

/-- The fields of an admin form that are editable: the flattened `fieldsets`
field list minus the `readonly_fields` (Django renders a field of the form
as an input exactly when it is not listed in `readonly_fields`). -/
def editableFields (formFields readonlyFields : List String) : List String :=
  formFields.filter (fun f => !readonlyFields.contains f)

namespace MeshAdmin

/-- `MeshAdmin.readonly_fields` from the source. -/
def readonly_fields : List String :=
  ["ID", "verbose_id", "created_at", "updated_at", "reconstructed_at",
   "get_preview", "get_thumbnail"]

/-- The flattened field list of `MeshAdmin.fieldsets`, in source order. -/
def form_fields : List String :=
  ["ID", "verbose_id", "created_at", "updated_at", "reconstructed_at",
   "status", "completed", "hidden", "name", "country", "state", "district",
   "description", "center_image", "denoise", "rotaZ", "rotaX", "rotaY",
   "minObsAng", "orientMesh", "thumbnail", "get_thumbnail", "preview",
   "get_preview"]

/-- Write one posted field into a Mesh row.  Computed display methods
(`get_preview`, `get_thumbnail`) are not model fields and write nothing. -/
def setField (m : Mesh) (f : String) (d : FormData) : Mesh :=
  if f == "ID" then { m with ID := d.str f }
  else if f == "verbose_id" then { m with verbose_id := d.str f }
  else if f == "created_at" then { m with created_at := d.str f }
  else if f == "updated_at" then { m with updated_at := d.str f }
  else if f == "reconstructed_at" then { m with reconstructed_at := some (d.str f) }
  else if f == "status" then { m with status := d.str f }
  else if f == "completed" then { m with completed := d.checkbox f }
  else if f == "hidden" then { m with hidden := d.checkbox f }
  else if f == "name" then { m with name := d.str f }
  else if f == "country" then { m with country := d.str f }
  else if f == "state" then { m with state := d.str f }
  else if f == "district" then { m with district := d.str f }
  else if f == "description" then { m with description := d.str f }
  else if f == "center_image" then { m with center_image := d.str f }
  else if f == "denoise" then { m with denoise := d.str f }
  else if f == "rotaZ" then { m with rotaZ := d.str f }
  else if f == "rotaX" then { m with rotaX := d.str f }
  else if f == "rotaY" then { m with rotaY := d.str f }
  else if f == "minObsAng" then { m with minObsAng := d.str f }
  else if f == "orientMesh" then { m with orientMesh := d.str f }
  else if f == "thumbnail" then { m with thumbnail := d.str f }
  else if f == "preview" then { m with preview := d.str f }
  else m

/-- The editable fields of the Mesh change form. -/
def editable_fields : List String := editableFields form_fields readonly_fields

/-- Saving the Mesh change form: apply the posted data to every editable
field, leaving readonly fields untouched. -/
def formSave (m : Mesh) (d : FormData) : Mesh :=
  editable_fields.foldl (fun acc f => setField acc f d) m

end MeshAdmin

namespace RunAdmin

/-- `RunAdmin.readonly_fields` from the source. -/
def readonly_fields : List String :=
  ["ID", "ark", "mesh_id_verbose", "started_at", "ended_at", "image_count",
   "status", "directory"]

/-- The flattened field list of `RunAdmin.fieldsets`, in source order. -/
def form_fields : List String :=
  ["ID", "ark", "mesh_id_verbose", "status", "started_at", "ended_at",
   "directory", "image_count", "rotaZ", "rotaX", "rotaY"]

/-- Write one posted field into a Run row.  `mesh_id_verbose` and
`image_count` are computed display methods and write nothing. -/
def setField (r : Run) (f : String) (d : FormData) : Run :=
  if f == "ID" then { r with ID := d.str f }
  else if f == "ark" then { r with ark := some (d.str f) }
  else if f == "status" then { r with status := d.str f }
  else if f == "started_at" then { r with started_at := d.str f }
  else if f == "ended_at" then { r with ended_at := some (d.str f) }
  else if f == "directory" then { r with directory := d.str f }
  else if f == "rotaZ" then { r with rotaZ := d.str f }
  else if f == "rotaX" then { r with rotaX := d.str f }
  else if f == "rotaY" then { r with rotaY := d.str f }
  else r

/-- The editable fields of the Run change form. -/
def editable_fields : List String := editableFields form_fields readonly_fields

/-- Saving the Run change form. -/
def formSave (r : Run) (d : FormData) : Run :=
  editable_fields.foldl (fun acc f => setField acc f d) r

end RunAdmin

namespace ARKAdmin

/-- `ARKAdmin.readonly_fields` from the source. -/
def readonly_fields : List String :=
  ["ark", "get_run", "mesh_id_verbose", "image_count", "naan", "shoulder",
   "assigned_name", "created_at", "url", "metadata"]

/-- The flattened field list of `ARKAdmin.fieldsets`, in source order. -/
def form_fields : List String :=
  ["ark", "url", "created_at", "get_run", "mesh_id_verbose", "image_count",
   "naan", "shoulder", "assigned_name", "metadata", "commitment"]

/-- Write one posted field into an ARK row.  `get_run`, `mesh_id_verbose`
and `image_count` are computed display methods and write nothing. -/
def setField (a : ARK) (f : String) (d : FormData) : ARK :=
  if f == "ark" then { a with ark := d.str f }
  else if f == "url" then { a with url := d.str f }
  else if f == "created_at" then { a with created_at := d.str f }
  else if f == "naan" then { a with naan := d.str f }
  else if f == "shoulder" then { a with shoulder := d.str f }
  else if f == "assigned_name" then { a with assigned_name := d.str f }
  else if f == "metadata" then { a with metadata := d.str f }
  else if f == "commitment" then { a with commitment := d.str f }
  else a

/-- The editable fields of the ARK change form. -/
def editable_fields : List String := editableFields form_fields readonly_fields

/-- Saving the ARK change form. -/
def formSave (a : ARK) (d : FormData) : ARK :=
  editable_fields.foldl (fun acc f => setField acc f d) a

end ARKAdmin

namespace ImageAdmin

/-- `ImageAdmin.readonly_fields` from the source. -/
def readonly_fields : List String :=
  ["ID", "contribution", "created_at", "image", "note", "get_thumbnail",
   "get_mesh_id_verbose", "get_contributor_link"]

/-- The flattened field list of `ImageAdmin.fieldsets`, in source order. -/
def form_fields : List String :=
  ["note", "ID", "get_mesh_id_verbose", "get_contributor_link",
   "contribution", "created_at", "image", "get_thumbnail", "label", "remark"]

/-- Write one posted field into an Image row.  `note`, `get_thumbnail`,
`get_mesh_id_verbose` and `get_contributor_link` are computed display
methods and write nothing. -/
def setField (i : Image) (f : String) (d : FormData) : Image :=
  if f == "ID" then { i with ID := d.str f }
  else if f == "contribution" then { i with contribution := d.str f }
  else if f == "created_at" then { i with created_at := d.str f }
  else if f == "image" then { i with image := d.str f }
  else if f == "label" then { i with label := d.str f }
  else if f == "remark" then { i with remark := d.str f }
  else i

/-- The editable fields of the Image change form. -/
def editable_fields : List String := editableFields form_fields readonly_fields

/-- Saving the Image change form. -/
def formSave (i : Image) (d : FormData) : Image :=
  editable_fields.foldl (fun acc f => setField acc f d) i

end ImageAdmin

/-- The part of a Django `TabularInline` configuration relevant here: the
attached model and whether the inline offers deletion of attached rows. -/
structure InlineConfig where
  model : String
  can_delete : Bool
deriving DecidableEq, Repr

/-- `ContributionsInline`: `model = Contribution`, `can_delete = True`. -/
def ContributionsInline : InlineConfig :=
  { model := "Contribution", can_delete := true }

/-- `ContributionInlineMesh` subclasses `ContributionsInline`, inheriting
its model and `can_delete`. -/
def ContributionInlineMesh : InlineConfig := ContributionsInline

/-- `ContributionInlineContributor` subclasses `ContributionsInline`. -/
def ContributionInlineContributor : InlineConfig := ContributionsInline

/-- `RunInlineMesh`: `model = Run`, `can_delete = False`. -/
def RunInlineMesh : InlineConfig := { model := "Run", can_delete := false }

/-- `ImageInlineContribution`: `model = Image`, `can_delete = True`. -/
def ImageInlineContribution : InlineConfig :=
  { model := "Image", can_delete := true }

/-- `MeshAdmin.inlines` from the source: only the contribution inline is
registered (the run inline is commented out in the source). -/
def MeshAdmin.inlines : List InlineConfig := [ContributionInlineMesh]

/-- A change page offers deletion of attached rows of model `mdl` exactly
when some registered inline for that model has `can_delete = True`. -/
def inlinesOfferDelete (inls : List InlineConfig) (mdl : String) : Bool :=
  inls.any (fun c => c.model == mdl && c.can_delete)

/-- Processing the deletion checkboxes of a change page for attached rows
of model `mdl`: requested rows are removed only when some inline for that
model offers deletion; otherwise the table is untouched. -/
def processDeletions (inls : List InlineConfig) (mdl : String)
    (rows : List α) (td : α → Bool) : List α :=
  if inlinesOfferDelete inls mdl then rows.filter (fun r => !td r) else rows

/-- `MeshAdmin.image_count`:
`Image.objects.filter(contribution__mesh=obj).count()` — the number of
images whose contribution belongs to the given mesh. -/
def MeshAdmin.image_count (imgs : List Image) (cs : List Contribution)
    (m : Mesh) : Nat :=
  (imgs.filter (fun i => cs.any
    (fun c => c.ID == i.contribution && c.mesh == m.ID))).length

/-- `ContributorAdmin.image_count`:
`Image.objects.filter(contribution__contributor=obj).count()`. -/
def ContributorAdmin.image_count (imgs : List Image) (cs : List Contribution)
    (t : Contributor) : Nat :=
  (imgs.filter (fun i => cs.any
    (fun c => c.ID == i.contribution && c.contributor == t.ID))).length

/-- `ContributionAdmin.image_count`: `obj.images.count()` — the images of
one contribution via the reverse foreign key. -/
def ContributionAdmin.image_count (imgs : List Image) (c : Contribution) :
    Nat :=
  (imgs.filter (fun i => i.contribution == c.ID)).length

/-- The queryset `obj.images.filter(label="good")` of
`ContributionAdmin.images_good_count`: the reverse-foreign-key queryset of
the contribution, filtered on the label. -/
def ContributionAdmin.goodImages (imgs : List Image) (c : Contribution) :
    List Image :=
  (imgs.filter (fun i => i.contribution == c.ID)).filter
    (fun i => i.label == "good")

/-- `ContributionAdmin.images_good_count`:
`obj.images.filter(label="good").count()`. -/
def ContributionAdmin.images_good_count (imgs : List Image)
    (c : Contribution) : Nat :=
  (ContributionAdmin.goodImages imgs c).length

/-- An image is referenced by the commitment of a completed run when some
succeeded run holds the image in its frozen image set and an ARK row (the
carrier of the commitment) exists for that run. -/
def referencedByCompletedRun (runs : List Run) (arks : List ARK)
    (i : Image) : Bool :=
  runs.any (fun r => r.status == "succeeded"
    && arks.any (fun a => a.run == r.ID)
    && r.images.contains i.ID)

/-- `MeshAdmin.actions` from the source:
`[mark_completed, mark_incomplete, mark_hidden, mark_not_hidden]`. -/
def MeshAdmin.actions :
    List ((Mesh → Bool) → List Mesh → List Mesh × Nat) :=
  [MeshAdmin.mark_completed, MeshAdmin.mark_incomplete,
   MeshAdmin.mark_hidden, MeshAdmin.mark_not_hidden]

/-- `ContributorAdmin.actions` from the source:
`[ban_contributors, unban_contributors]`. -/
def ContributorAdmin.actions :
    List ((Contributor → Bool) → List Contributor → List Contributor × Nat) :=
  [ContributorAdmin.ban_contributors, ContributorAdmin.unban_contributors]

/-- `ImageAdmin.actions` from the source: `[mark_good, mark_bad, mark_nsfw]`. -/
def ImageAdmin.actions :
    List ((Image → Bool) → List Image → List Image × Nat) :=
  [ImageAdmin.mark_good, ImageAdmin.mark_bad, ImageAdmin.mark_nsfw]

namespace RunSM

/-- Modelled from the spec: the run status values of the Run State Machine
(section 4.2); the orchestration code itself is not under the visible
source, only the admin layer that displays it. -/
inductive RStatus
  | queued
  | running
  | succeeded
  | failed
deriving DecidableEq, Repr

/-- Modelled from the spec: a persisted Run record of the Run State
Machine, with its frozen image snapshot. -/
structure RunRec where
  ID : Nat
  mesh : Nat
  status : RStatus
  images : List Nat
deriving DecidableEq, Repr

/-- Modelled from the spec: the persisted state of the Run State Machine —
the run table plus a fresh-identifier counter. -/
structure SMState where
  runs : List RunRec
  nextID : Nat
deriving Repr

/-- Modelled from the spec: the error taxonomy of section 7 used by the
Run State Machine operations. -/
inductive SMError
  | ConflictError
  | EmptyInputError
  | InvalidTransitionError
deriving DecidableEq, Repr

/-- A run is active when its status is queued or running. -/
def isActive : RStatus → Bool
  | .queued => true
  | .running => true
  | _ => false

/-- The number of active runs a state holds for a mesh. -/
def activeFor (st : SMState) (m : Nat) : Nat :=
  (st.runs.filter (fun r => r.mesh == m && isActive r.status)).length

/-- Modelled from the spec: `createRun(meshID)` — fails with
`ConflictError` when an active run exists for the mesh, fails with
`EmptyInputError` when the Input Selector (abstracted as the parameter
`sel`) returns no eligible images, otherwise persists a new queued run
with the frozen snapshot.  The per-mesh guard is checked-and-set
atomically (section 5), so racing calls are linearized. -/
def createRun (sel : Nat → List Nat) (st : SMState) (m : Nat) :
    SMState × Except SMError Nat :=
  if st.runs.any (fun r => r.mesh == m && isActive r.status) then
    (st, .error .ConflictError)
  else if sel m = [] then
    (st, .error .EmptyInputError)
  else
    ({ runs := ⟨st.nextID, m, .queued, sel m⟩ :: st.runs,
       nextID := st.nextID + 1 }, .ok st.nextID)

/-- Overwrite the status of one run record when its identifier matches. -/
def statusSetter (rid : Nat) (s : RStatus) (x : RunRec) : RunRec :=
  if x.ID == rid then { x with status := s } else x

/-- Overwrite the status of the run with identifier `rid`. -/
def setStatus (st : SMState) (rid : Nat) (s : RStatus) : SMState :=
  { st with runs := st.runs.map (statusSetter rid s) }

/-- Modelled from the spec: `transitionToRunning(runID)` — allowed only
from queued; idempotent no-op when already running; otherwise
`InvalidTransitionError`. -/
def transitionToRunning (st : SMState) (rid : Nat) :
    SMState × Except SMError Unit :=
  match st.runs.find? (fun r => r.ID == rid) with
  | none => (st, .error .InvalidTransitionError)
  | some r =>
    match r.status with
    | .queued => (setStatus st rid .running, .ok ())
    | .running => (st, .ok ())
    | _ => (st, .error .InvalidTransitionError)

/-- Modelled from the spec: `complete(runID, artifactRef)` — allowed only
from running; sets succeeded. -/
def complete (st : SMState) (rid : Nat) : SMState × Except SMError Unit :=
  match st.runs.find? (fun r => r.ID == rid) with
  | none => (st, .error .InvalidTransitionError)
  | some r =>
    match r.status with
    | .running => (setStatus st rid .succeeded, .ok ())
    | _ => (st, .error .InvalidTransitionError)

/-- Modelled from the spec: `fail(runID, reason)` — allowed from queued or
running; sets failed. -/
def fail (st : SMState) (rid : Nat) : SMState × Except SMError Unit :=
  match st.runs.find? (fun r => r.ID == rid) with
  | none => (st, .error .InvalidTransitionError)
  | some r =>
    match r.status with
    | .queued => (setStatus st rid .failed, .ok ())
    | .running => (setStatus st rid .failed, .ok ())
    | _ => (st, .error .InvalidTransitionError)

/-- One operation request against the Run State Machine. -/
inductive Op
  | create (m : Nat)
  | toRunning (rid : Nat)
  | markComplete (rid : Nat)
  | markFail (rid : Nat)
deriving DecidableEq, Repr

/-- The post-state of one operation (errors leave the state unchanged). -/
def applyOp (sel : Nat → List Nat) (st : SMState) : Op → SMState
  | .create m => (createRun sel st m).1
  | .toRunning rid => (transitionToRunning st rid).1
  | .markComplete rid => (complete st rid).1
  | .markFail rid => (fail st rid).1

/-- The state reached from `st` by a sequence of operations. -/
def applyOps (sel : Nat → List Nat) (st : SMState) (ops : List Op) :
    SMState :=
  ops.foldl (applyOp sel) st

/-- The initial, empty state. -/
def initState : SMState := { runs := [], nextID := 0 }

/-- The spec invariant: at most one active run per mesh. -/
def atMostOneActive (st : SMState) : Prop := ∀ m, activeFor st m ≤ 1

/-- Auxiliary well-formedness: run identifiers are pairwise distinct and
below the fresh counter. -/
def wf (st : SMState) : Prop :=
  (st.runs.map RunRec.ID).Nodup ∧ ∀ r ∈ st.runs, r.ID < st.nextID

/-- `n` racing `createRun` calls for the same mesh, linearized by the
atomic per-mesh guard: the state threads through, the result of each call
is collected in order. -/
def race (sel : Nat → List Nat) (st : SMState) (m : Nat) :
    Nat → SMState × List (Except SMError Nat)
  | 0 => (st, [])
  | n + 1 =>
    let p := createRun sel st m
    let rest := race sel p.1 m n
    (rest.1, p.2 :: rest.2)

end RunSM

namespace Ex

/-! Concrete sample rows used by the witness and counterexample theorems. -/

/-- A sample image labeled `bad`, attached to contribution `c1`. -/
def i1 : Image :=
  { (default : Image) with ID := "i1", contribution := "c1", label := "bad" }

/-- A second sample image, labeled `good`, attached to contribution `c2`. -/
def i2 : Image :=
  { (default : Image) with ID := "i2", contribution := "c2", label := "good" }

/-- A third sample image, unlabeled, attached to contribution `c1`. -/
def i3 : Image :=
  { (default : Image) with ID := "i3", contribution := "c1", label := "unlabeled" }

/-- A sample contribution of contributor `t1` to mesh `m1`. -/
def c1 : Contribution :=
  { (default : Contribution) with ID := "c1", mesh := "m1", contributor := "t1" }

/-- A second sample contribution, of contributor `t1` to mesh `m1`. -/
def c2 : Contribution :=
  { (default : Contribution) with ID := "c2", mesh := "m1", contributor := "t1" }

/-- A sample contributor. -/
def t1 : Contributor := { (default : Contributor) with ID := "t1" }

/-- A sample mesh with a preview, a thumbnail and a reconstruction time. -/
def m1 : Mesh :=
  { (default : Mesh) with
      ID := "m1"
      preview := "p.png"
      thumbnail := "t.png"
      reconstructed_at := some "2024" }

/-- A sample succeeded run whose frozen image set holds `i1`. -/
def r1 : Run :=
  { (default : Run) with
      ID := "r1"
      mesh := "m1"
      status := "succeeded"
      ark := some "ark:/1/x"
      images := ["i1"] }

/-- The ARK minted for `r1`, carrying a commitment. -/
def a1 : ARK :=
  { (default : ARK) with ark := "ark:/1/x", run := "r1", commitment := "c0" }

/-- A queryset predicate selecting the image `i1`. -/
def qi1 : Image → Bool := fun i => i.ID == "i1"

/-- A queryset predicate selecting every row. -/
def qAll : α → Bool := fun _ => true

/-- Form data posting the string `tampered` into every field and ticking
every checkbox. -/
def dTamper : FormData := { str := fun _ => "tampered", checkbox := fun _ => true }

/-- A sample Input Selector for the run state machine: every mesh has one
eligible image. -/
def sel1 : Nat → List Nat := fun _ => [7]

end Ex

end Tirtha

namespace Tirtha

/-- The row-by-row behavior of `queryset.update`: a matched row becomes
`set r`, an unmatched row is returned unchanged. -/
theorem bulkUpdate_forall2 (q : α → Bool) (set : α → α) (rows : List α) :
    List.Forall₂
      (fun r r2 => (q r = true → r2 = set r) ∧ (q r = false → r2 = r))
      rows (bulkUpdate q set rows).1 := by
  induction rows with
  | nil => exact List.Forall₂.nil
  | cons r rs ih =>
    simp only [bulkUpdate, List.map_cons]
    refine List.Forall₂.cons ?_ ih
    cases hq : q r with
    | false => simp [hq]
    | true => simp [hq]

/-- The frame of `queryset.update`: restoring the target field of an
output row from its input row recovers the input row exactly, and rows
outside the queryset are unchanged. -/
theorem bulkUpdate_frame (q : α → Bool) (set : α → α) (restore : α → α → α)
    (h1 : ∀ r, restore r (set r) = r) (h2 : ∀ r, restore r r = r)
    (rows : List α) :
    List.Forall₂ (fun r r2 => restore r r2 = r ∧ (q r = false → r2 = r))
      rows (bulkUpdate q set rows).1 := by
  induction rows with
  | nil => exact List.Forall₂.nil
  | cons r rs ih =>
    simp only [bulkUpdate, List.map_cons]
    refine List.Forall₂.cons ?_ ih
    cases hq : q r with
    | false => simp [hq, h2]
    | true => simp [hq, h1]

/-- Every row of the output of `queryset.update` comes from an input row,
either unchanged or with `set` applied. -/
theorem bulkUpdate_mem {q : α → Bool} {set : α → α} {rows : List α} {r2 : α}
    (h : r2 ∈ (bulkUpdate q set rows).1) :
    ∃ r ∈ rows, r2 = if q r then set r else r := by
  simp only [bulkUpdate, List.mem_map] at h
  obtain ⟨r, hr, he⟩ := h
  exact ⟨r, hr, he.symm⟩

/-- A matched input row appears in the output with `set` applied. -/
theorem bulkUpdate_mem_of (q : α → Bool) (set : α → α) {rows : List α}
    {r : α} (hm : r ∈ rows) (hq : q r = true) :
    set r ∈ (bulkUpdate q set rows).1 := by
  simp only [bulkUpdate, List.mem_map]
  exact ⟨r, hm, by simp [hq]⟩

/-- A projection untouched by `set` is untouched by `queryset.update` on
every row. -/
theorem bulkUpdate_map_eq {q : α → Bool} {set : α → α} (f : α → β)
    (h : ∀ r, f (set r) = f r) (rows : List α) :
    (bulkUpdate q set rows).1.map f = rows.map f := by
  induction rows with
  | nil => rfl
  | cons r rs ih =>
    simp only [bulkUpdate, List.map_cons] at ih ⊢
    cases hq : q r with
    | false => simp [hq, ih]
    | true => simp [hq, h, ih]

end Tirtha

namespace Tirtha

/-- Claim C5: each of the six bulk flag actions performs exactly its named
field mutation on every object in its queryset — `mark_completed` sets
`completed := true`, `mark_incomplete` sets `completed := false`,
`mark_hidden` sets `hidden := true`, `mark_not_hidden` sets
`hidden := false`, `ban_contributors` sets `banned := true`,
`unban_contributors` sets `banned := false` — leaves unselected rows
unchanged, and reports the number of matched rows. -/
theorem bulk_flag_actions_exact :
    (∀ (q : Mesh → Bool) rows,
      List.Forall₂ (fun r r2 => (q r = true → r2 = { r with completed := true })
          ∧ (q r = false → r2 = r)) rows (MeshAdmin.mark_completed q rows).1
        ∧ (MeshAdmin.mark_completed q rows).2 = (rows.filter q).length)
    ∧ (∀ (q : Mesh → Bool) rows,
      List.Forall₂ (fun r r2 => (q r = true → r2 = { r with completed := false })
          ∧ (q r = false → r2 = r)) rows (MeshAdmin.mark_incomplete q rows).1
        ∧ (MeshAdmin.mark_incomplete q rows).2 = (rows.filter q).length)
    ∧ (∀ (q : Mesh → Bool) rows,
      List.Forall₂ (fun r r2 => (q r = true → r2 = { r with hidden := true })
          ∧ (q r = false → r2 = r)) rows (MeshAdmin.mark_hidden q rows).1
        ∧ (MeshAdmin.mark_hidden q rows).2 = (rows.filter q).length)
    ∧ (∀ (q : Mesh → Bool) rows,
      List.Forall₂ (fun r r2 => (q r = true → r2 = { r with hidden := false })
          ∧ (q r = false → r2 = r)) rows (MeshAdmin.mark_not_hidden q rows).1
        ∧ (MeshAdmin.mark_not_hidden q rows).2 = (rows.filter q).length)
    ∧ (∀ (q : Contributor → Bool) rows,
      List.Forall₂ (fun r r2 => (q r = true → r2 = { r with banned := true })
          ∧ (q r = false → r2 = r)) rows (ContributorAdmin.ban_contributors q rows).1
        ∧ (ContributorAdmin.ban_contributors q rows).2 = (rows.filter q).length)
    ∧ (∀ (q : Contributor → Bool) rows,
      List.Forall₂ (fun r r2 => (q r = true → r2 = { r with banned := false })
          ∧ (q r = false → r2 = r)) rows (ContributorAdmin.unban_contributors q rows).1
        ∧ (ContributorAdmin.unban_contributors q rows).2 = (rows.filter q).length) :=
  ⟨fun q rows => ⟨bulkUpdate_forall2 q _ rows, rfl⟩,
   fun q rows => ⟨bulkUpdate_forall2 q _ rows, rfl⟩,
   fun q rows => ⟨bulkUpdate_forall2 q _ rows, rfl⟩,
   fun q rows => ⟨bulkUpdate_forall2 q _ rows, rfl⟩,
   fun q rows => ⟨bulkUpdate_forall2 q _ rows, rfl⟩,
   fun q rows => ⟨bulkUpdate_forall2 q _ rows, rfl⟩⟩

/-- Claim C5 witness: `mark_completed` on a singleton queryset reports one
updated row, and the row-by-row description holds at that input. -/
theorem bulk_flag_actions_exact_witness :
    List.Forall₂
      (fun r r2 => (Ex.qAll r = true → r2 = { r with completed := true })
        ∧ (Ex.qAll r = false → r2 = r)) [Ex.m1]
      (MeshAdmin.mark_completed Ex.qAll [Ex.m1]).1
    ∧ (MeshAdmin.mark_completed Ex.qAll [Ex.m1]).2 = ([Ex.m1].filter Ex.qAll).length :=
  bulk_flag_actions_exact.1 Ex.qAll [Ex.m1]

end Tirtha

namespace Tirtha

/-- Claim C8: every bulk admin action is frame-preserving — for each of the
nine registered actions, writing the original value of the single target
field back into an output row recovers the input row exactly (so no other
field of a selected row changes), and rows outside the queryset are
returned unchanged. -/
theorem bulk_actions_frame :
    (∀ (q : Mesh → Bool) rows,
      List.Forall₂ (fun r r2 => { r2 with completed := r.completed } = r
          ∧ (q r = false → r2 = r)) rows (MeshAdmin.mark_completed q rows).1)
    ∧ (∀ (q : Mesh → Bool) rows,
      List.Forall₂ (fun r r2 => { r2 with completed := r.completed } = r
          ∧ (q r = false → r2 = r)) rows (MeshAdmin.mark_incomplete q rows).1)
    ∧ (∀ (q : Mesh → Bool) rows,
      List.Forall₂ (fun r r2 => { r2 with hidden := r.hidden } = r
          ∧ (q r = false → r2 = r)) rows (MeshAdmin.mark_hidden q rows).1)
    ∧ (∀ (q : Mesh → Bool) rows,
      List.Forall₂ (fun r r2 => { r2 with hidden := r.hidden } = r
          ∧ (q r = false → r2 = r)) rows (MeshAdmin.mark_not_hidden q rows).1)
    ∧ (∀ (q : Contributor → Bool) rows,
      List.Forall₂ (fun r r2 => { r2 with banned := r.banned } = r
          ∧ (q r = false → r2 = r)) rows (ContributorAdmin.ban_contributors q rows).1)
    ∧ (∀ (q : Contributor → Bool) rows,
      List.Forall₂ (fun r r2 => { r2 with banned := r.banned } = r
          ∧ (q r = false → r2 = r)) rows (ContributorAdmin.unban_contributors q rows).1)
    ∧ (∀ (q : Image → Bool) rows,
      List.Forall₂ (fun r r2 => { r2 with label := r.label } = r
          ∧ (q r = false → r2 = r)) rows (ImageAdmin.mark_good q rows).1)
    ∧ (∀ (q : Image → Bool) rows,
      List.Forall₂ (fun r r2 => { r2 with label := r.label } = r
          ∧ (q r = false → r2 = r)) rows (ImageAdmin.mark_bad q rows).1)
    ∧ (∀ (q : Image → Bool) rows,
      List.Forall₂ (fun r r2 => { r2 with label := r.label } = r
          ∧ (q r = false → r2 = r)) rows (ImageAdmin.mark_nsfw q rows).1) :=
  ⟨fun q rows => bulkUpdate_frame q _ _ (fun _ => rfl) (fun _ => rfl) rows,
   fun q rows => bulkUpdate_frame q _ _ (fun _ => rfl) (fun _ => rfl) rows,
   fun q rows => bulkUpdate_frame q _ _ (fun _ => rfl) (fun _ => rfl) rows,
   fun q rows => bulkUpdate_frame q _ _ (fun _ => rfl) (fun _ => rfl) rows,
   fun q rows => bulkUpdate_frame q _ _ (fun _ => rfl) (fun _ => rfl) rows,
   fun q rows => bulkUpdate_frame q _ _ (fun _ => rfl) (fun _ => rfl) rows,
   fun q rows => bulkUpdate_frame q _ _ (fun _ => rfl) (fun _ => rfl) rows,
   fun q rows => bulkUpdate_frame q _ _ (fun _ => rfl) (fun _ => rfl) rows,
   fun q rows => bulkUpdate_frame q _ _ (fun _ => rfl) (fun _ => rfl) rows⟩

/-- Claim C8 witness: the frame description of `mark_good` at a concrete
queryset over two images, one selected and one not. -/
theorem bulk_actions_frame_witness :
    List.Forall₂
      (fun r r2 => { r2 with label := r.label } = r
        ∧ (Ex.qi1 r = false → r2 = r)) [Ex.i1, Ex.i2]
      (ImageAdmin.mark_good Ex.qi1 [Ex.i1, Ex.i2]).1 :=
  (bulk_actions_frame.2.2.2.2.2.2.1) Ex.qi1 [Ex.i1, Ex.i2]

end Tirtha

namespace Tirtha

/-- Claim C6: the bulk moderation actions assign exactly the three ledger
labels — `mark_good` writes `good`, `mark_bad` writes `bad`, `mark_nsfw`
writes `nsfw` on every selected image, unselected images are unchanged —
and a row of the output of any of the three registered actions either is
an unchanged input row or carries a label in `{good, bad, nsfw}`. -/
theorem moderation_actions_exact :
    (∀ (q : Image → Bool) rows,
      List.Forall₂ (fun i i2 => (q i = true → i2 = { i with label := "good" })
          ∧ (q i = false → i2 = i)) rows (ImageAdmin.mark_good q rows).1)
    ∧ (∀ (q : Image → Bool) rows,
      List.Forall₂ (fun i i2 => (q i = true → i2 = { i with label := "bad" })
          ∧ (q i = false → i2 = i)) rows (ImageAdmin.mark_bad q rows).1)
    ∧ (∀ (q : Image → Bool) rows,
      List.Forall₂ (fun i i2 => (q i = true → i2 = { i with label := "nsfw" })
          ∧ (q i = false → i2 = i)) rows (ImageAdmin.mark_nsfw q rows).1)
    ∧ (∀ a ∈ ImageAdmin.actions, ∀ (q : Image → Bool) rows i2,
        i2 ∈ (a q rows).1 →
        i2 ∈ rows ∨ i2.label ∈ (["good", "bad", "nsfw"] : List String)) := by
  refine ⟨fun q rows => bulkUpdate_forall2 q _ rows,
          fun q rows => bulkUpdate_forall2 q _ rows,
          fun q rows => bulkUpdate_forall2 q _ rows, ?_⟩
  intro a ha q rows i2 h
  fin_cases ha <;>
  · obtain ⟨i, hi, he⟩ := bulkUpdate_mem h
    cases hq : q i with
    | false =>
      left
      rw [he, if_neg (by simp [hq])]
      exact hi
    | true =>
      right
      rw [he, if_pos (by simp [hq])]
      simp

/-- Claim C6 witness: `mark_good` over a two-image table with one selected
image, and the label-range fact for a concrete output row of `mark_bad`. -/
theorem moderation_actions_exact_witness :
    List.Forall₂
      (fun i i2 => (Ex.qi1 i = true → i2 = { i with label := "good" })
        ∧ (Ex.qi1 i = false → i2 = i)) [Ex.i1, Ex.i2]
      (ImageAdmin.mark_good Ex.qi1 [Ex.i1, Ex.i2]).1
    ∧ (ImageAdmin.mark_bad ∈ ImageAdmin.actions)
    ∧ ({ Ex.i1 with label := "bad" } ∈ (ImageAdmin.mark_bad Ex.qi1 [Ex.i1]).1
        → ({ Ex.i1 with label := "bad" } ∈ ([Ex.i1] : List Image)
           ∨ ({ Ex.i1 with label := "bad" } : Image).label
              ∈ (["good", "bad", "nsfw"] : List String))) :=
  ⟨moderation_actions_exact.1 Ex.qi1 [Ex.i1, Ex.i2],
   by simp [ImageAdmin.actions],
   moderation_actions_exact.2.2.2 ImageAdmin.mark_bad (by simp [ImageAdmin.actions])
     Ex.qi1 [Ex.i1] _⟩

end Tirtha

namespace Tirtha

/-- Claim C7: the Mesh change page never offers deletion of a Run or an
ARK — the run inline disables deletion (`can_delete = False`), no inline
registered on `MeshAdmin` attaches the Run or ARK model, and processing
any set of deletion requests through the Mesh change page leaves the run
table and the ARK table unchanged. -/
theorem runs_arks_undeletable_from_mesh_page :
    RunInlineMesh.can_delete = false
    ∧ inlinesOfferDelete MeshAdmin.inlines "Run" = false
    ∧ inlinesOfferDelete MeshAdmin.inlines "ARK" = false
    ∧ (∀ (runs : List Run) (td : Run → Bool),
        processDeletions MeshAdmin.inlines "Run" runs td = runs)
    ∧ (∀ (arks : List ARK) (td : ARK → Bool),
        processDeletions MeshAdmin.inlines "ARK" arks td = arks) := by
  refine ⟨rfl, by decide, by decide, ?_, ?_⟩
  · intro runs td
    simp [processDeletions, inlinesOfferDelete, MeshAdmin.inlines,
      ContributionInlineMesh, ContributionsInline]
  · intro arks td
    simp [processDeletions, inlinesOfferDelete, MeshAdmin.inlines,
      ContributionInlineMesh, ContributionsInline]

/-- Claim C7 witness: deletion requests against a concrete one-run table
and a concrete one-ARK table through the Mesh change page change nothing. -/
theorem runs_arks_undeletable_from_mesh_page_witness :
    processDeletions MeshAdmin.inlines "Run" [Ex.r1] Ex.qAll = [Ex.r1]
    ∧ processDeletions MeshAdmin.inlines "ARK" [Ex.a1] Ex.qAll = [Ex.a1] :=
  ⟨runs_arks_undeletable_from_mesh_page.2.2.2.1 [Ex.r1] Ex.qAll,
   runs_arks_undeletable_from_mesh_page.2.2.2.2 [Ex.a1] Ex.qAll⟩

end Tirtha

namespace Tirtha

/-- The ARK change form resolves to a single write: only `commitment` is
editable (it is the one form field missing from `readonly_fields`). -/
theorem ark_formSave_eq (a : ARK) (d : FormData) :
    ARKAdmin.formSave a d = { a with commitment := d.str "commitment" } := rfl

/-- The Run change form resolves to writes of the three orientation
fields only. -/
theorem run_formSave_eq (r : Run) (d : FormData) :
    RunAdmin.formSave r d =
      { r with rotaZ := d.str "rotaZ", rotaX := d.str "rotaX",
               rotaY := d.str "rotaY" } := rfl

/-- The Image change form resolves to writes of `label` and `remark`
only. -/
theorem image_formSave_eq (i : Image) (d : FormData) :
    ImageAdmin.formSave i d =
      { i with label := d.str "label", remark := d.str "remark" } := rfl

end Tirtha

namespace Tirtha

/-- The editable fields of the Mesh change form, evaluated. -/
theorem mesh_editable_fields_eval :
    MeshAdmin.editable_fields =
      ["status", "completed", "hidden", "name", "country", "state",
       "district", "description", "center_image", "denoise", "rotaZ",
       "rotaX", "rotaY", "minObsAng", "orientMesh", "thumbnail",
       "preview"] := by decide

/-- The Mesh change form resolves to writes of the editable fields only:
`status`, `completed`, `hidden`, the location and description fields, the
orientation fields, `thumbnail` and `preview`.  In particular `ID`,
`verbose_id`, `created_at`, `updated_at` and `reconstructed_at` are never
written. -/
theorem mesh_formSave_eq (m : Mesh) (d : FormData) :
    MeshAdmin.formSave m d =
      { m with
          status := d.str "status"
          completed := d.checkbox "completed"
          hidden := d.checkbox "hidden"
          name := d.str "name"
          country := d.str "country"
          state := d.str "state"
          district := d.str "district"
          description := d.str "description"
          center_image := d.str "center_image"
          denoise := d.str "denoise"
          rotaZ := d.str "rotaZ"
          rotaX := d.str "rotaX"
          rotaY := d.str "rotaY"
          minObsAng := d.str "minObsAng"
          orientMesh := d.str "orientMesh"
          thumbnail := d.str "thumbnail"
          preview := d.str "preview" } := by
  simp only [MeshAdmin.formSave, mesh_editable_fields_eval, List.foldl_cons,
    List.foldl_nil, MeshAdmin.setField]
  simp

end Tirtha

namespace Tirtha

/-- Claim C2 counterexample: the `commitment` field of an ARK is NOT
read-only at the administrative interface — it sits in the ARK form
(`fieldsets`) but not in `ARKAdmin.readonly_fields`, so a form save
overwrites it on an existing row. -/
theorem ark_commitment_mutable :
    "commitment" ∈ ARKAdmin.form_fields
    ∧ "commitment" ∉ ARKAdmin.readonly_fields
    ∧ (ARKAdmin.formSave Ex.a1 Ex.dTamper).commitment = "tampered"
    ∧ Ex.a1.commitment = "c0" := by
  refine ⟨by decide, by decide, ?_, rfl⟩
  rw [ark_formSave_eq]
  rfl

/-- Claim C2 (amended): every field of an ARK except `commitment` — its
`ark` string, `naan`, `shoulder`, `assigned_name`, `url`, `metadata`,
`created_at` and run reference — is read-only at the administrative
interface, and a Run form save never changes the status; `commitment` is
the one ARK form field left editable. -/
theorem ark_fields_readonly_except_commitment :
    (∀ (a : ARK) (d : FormData),
      (ARKAdmin.formSave a d).ark = a.ark
      ∧ (ARKAdmin.formSave a d).run = a.run
      ∧ (ARKAdmin.formSave a d).naan = a.naan
      ∧ (ARKAdmin.formSave a d).shoulder = a.shoulder
      ∧ (ARKAdmin.formSave a d).assigned_name = a.assigned_name
      ∧ (ARKAdmin.formSave a d).url = a.url
      ∧ (ARKAdmin.formSave a d).metadata = a.metadata
      ∧ (ARKAdmin.formSave a d).created_at = a.created_at)
    ∧ (∀ (r : Run) (d : FormData), (RunAdmin.formSave r d).status = r.status)
    ∧ ARKAdmin.editable_fields = ["commitment"] := by
  refine ⟨?_, ?_, by decide⟩
  · intro a d
    rw [ark_formSave_eq]
    exact ⟨rfl, rfl, rfl, rfl, rfl, rfl, rfl, rfl⟩
  · intro r d
    rw [run_formSave_eq]

/-- Claim C2 (amended) witness: the preserved ARK fields and the preserved
run status at a concrete row and concrete posted data. -/
theorem ark_fields_readonly_except_commitment_witness :
    (ARKAdmin.formSave Ex.a1 Ex.dTamper).naan = Ex.a1.naan
    ∧ (RunAdmin.formSave Ex.r1 Ex.dTamper).status = Ex.r1.status :=
  ⟨(ark_fields_readonly_except_commitment.1 Ex.a1 Ex.dTamper).2.2.1,
   ark_fields_readonly_except_commitment.2.1 Ex.r1 Ex.dTamper⟩

end Tirtha

namespace Tirtha

/-- Claim C4 counterexample: the `preview` and `thumbnail` fields of a
Mesh ARE changed by an administrative operation — they are editable in the
Mesh change form (present in `fieldsets`, absent from `readonly_fields`),
so a form save overwrites both. -/
theorem mesh_preview_thumbnail_mutable :
    "preview" ∈ MeshAdmin.editable_fields
    ∧ "thumbnail" ∈ MeshAdmin.editable_fields
    ∧ (MeshAdmin.formSave Ex.m1 Ex.dTamper).preview = "tampered"
    ∧ Ex.m1.preview = "p.png"
    ∧ (MeshAdmin.formSave Ex.m1 Ex.dTamper).thumbnail = "tampered"
    ∧ Ex.m1.thumbnail = "t.png" := by
  refine ⟨by decide, by decide, ?_, rfl, ?_, rfl⟩ <;>
  · rw [mesh_formSave_eq]
    rfl

/-- Claim C4 (amended): no administrative operation changes a Mesh row's
`reconstructed_at` — the form never writes it and every registered bulk
action preserves it on every row — and the four bulk actions also leave
`preview` and `thumbnail` of every row unchanged; `preview` and
`thumbnail` are, however, editable through the Mesh change form. -/
theorem mesh_reconstruction_fields_admin :
    (∀ (m : Mesh) (d : FormData),
      (MeshAdmin.formSave m d).reconstructed_at = m.reconstructed_at)
    ∧ (∀ a ∈ MeshAdmin.actions, ∀ (q : Mesh → Bool) rows,
        (a q rows).1.map Mesh.reconstructed_at = rows.map Mesh.reconstructed_at
        ∧ (a q rows).1.map Mesh.preview = rows.map Mesh.preview
        ∧ (a q rows).1.map Mesh.thumbnail = rows.map Mesh.thumbnail)
    ∧ "preview" ∈ MeshAdmin.editable_fields
    ∧ "thumbnail" ∈ MeshAdmin.editable_fields := by
  refine ⟨?_, ?_, by decide, by decide⟩
  · intro m d
    rw [mesh_formSave_eq]
  · intro a ha q rows
    fin_cases ha <;>
      simp only [MeshAdmin.mark_completed, MeshAdmin.mark_incomplete,
        MeshAdmin.mark_hidden, MeshAdmin.mark_not_hidden] <;>
      refine ⟨bulkUpdate_map_eq _ ?_ rows, bulkUpdate_map_eq _ ?_ rows,
        bulkUpdate_map_eq _ ?_ rows⟩ <;>
      exact fun r => rfl

/-- Claim C4 (amended) witness: preservation of `reconstructed_at` by a
concrete form save, and of all three fields by `mark_hidden` on a concrete
table. -/
theorem mesh_reconstruction_fields_admin_witness :
    (MeshAdmin.formSave Ex.m1 Ex.dTamper).reconstructed_at = Ex.m1.reconstructed_at
    ∧ ((MeshAdmin.mark_hidden Ex.qAll [Ex.m1]).1.map Mesh.reconstructed_at
        = [Ex.m1].map Mesh.reconstructed_at) :=
  ⟨mesh_reconstruction_fields_admin.1 Ex.m1 Ex.dTamper,
   (mesh_reconstruction_fields_admin.2.1 MeshAdmin.mark_hidden
     (by simp [MeshAdmin.actions]) Ex.qAll [Ex.m1]).1⟩

end Tirtha

namespace Tirtha

/-- Claim C3 counterexample: an image referenced by the commitment of a
completed (succeeded, ARK-minted) run is NOT exempt from the bulk label
actions — `mark_good` on a queryset containing such an image rewrites its
label, and the image form also edits `label`. -/
theorem moderation_changes_referenced_image :
    referencedByCompletedRun [Ex.r1] [Ex.a1] Ex.i1 = true
    ∧ Ex.qi1 Ex.i1 = true
    ∧ (ImageAdmin.mark_good Ex.qi1 [Ex.i1]).1 = [{ Ex.i1 with label := "good" }]
    ∧ Ex.i1.label = "bad"
    ∧ (ImageAdmin.formSave Ex.i1 Ex.dTamper).label = "tampered" := by
  refine ⟨by decide, by decide, by decide, rfl, ?_⟩
  rw [image_formSave_eq]
  rfl

/-- Claim C3 (amended): the bulk moderation actions update the label of
every selected image unconditionally — an image referenced by a completed
run's commitment receives the new label like any other selected image —
and `label` is an editable field of the image form.  (Protection of a past
run's input set comes from the run's frozen image snapshot, not from label
immutability.) -/
theorem moderation_ignores_run_references (runs : List Run) (arks : List ARK)
    (q : Image → Bool) (rows : List Image) (i : Image)
    (hmem : i ∈ rows) (hq : q i = true)
    (_href : referencedByCompletedRun runs arks i = true) :
    ({ i with label := "good" } ∈ (ImageAdmin.mark_good q rows).1)
    ∧ ({ i with label := "bad" } ∈ (ImageAdmin.mark_bad q rows).1)
    ∧ ({ i with label := "nsfw" } ∈ (ImageAdmin.mark_nsfw q rows).1)
    ∧ "label" ∈ ImageAdmin.editable_fields :=
  ⟨bulkUpdate_mem_of q _ hmem hq, bulkUpdate_mem_of q _ hmem hq,
   bulkUpdate_mem_of q _ hmem hq, by decide⟩

/-- Claim C3 (amended) witness: the amended statement at the concrete
referenced image `i1`. -/
theorem moderation_ignores_run_references_witness :
    Ex.i1 ∈ [Ex.i1]
    ∧ Ex.qi1 Ex.i1 = true
    ∧ referencedByCompletedRun [Ex.r1] [Ex.a1] Ex.i1 = true
    ∧ ({ Ex.i1 with label := "good" } ∈ (ImageAdmin.mark_good Ex.qi1 [Ex.i1]).1) :=
  ⟨by decide, by decide, by decide,
   (moderation_ignores_run_references [Ex.r1] [Ex.a1] Ex.qi1 [Ex.i1] Ex.i1
     (by decide) (by decide) (by decide)).1⟩

/-- Claim C10: `ContributionAdmin.images_good_count` counts exactly the
images of the given contribution whose label is `good`: its queryset holds
an image iff the image is in the table, belongs to the contribution, and
is labeled `good`. -/
theorem images_good_count_characterization (imgs : List Image)
    (c : Contribution) :
    ContributionAdmin.images_good_count imgs c
      = (imgs.filter (fun i => i.contribution == c.ID && i.label == "good")).length
    ∧ ∀ i : Image, i ∈ ContributionAdmin.goodImages imgs c
        ↔ i ∈ imgs ∧ i.contribution = c.ID ∧ i.label = "good" := by
  constructor
  · simp [ContributionAdmin.images_good_count, ContributionAdmin.goodImages,
      List.filter_filter, Bool.and_comm]
  · intro i
    simp only [ContributionAdmin.goodImages, List.mem_filter, beq_iff_eq,
      and_assoc]

/-- Claim C10 witness: the characterization over a concrete three-image
table — only the `good` image of contribution `c2` is counted. -/
theorem images_good_count_characterization_witness :
    (ContributionAdmin.images_good_count [Ex.i1, Ex.i2, Ex.i3] Ex.c2
      = ([Ex.i1, Ex.i2, Ex.i3].filter
          (fun i => i.contribution == Ex.c2.ID && i.label == "good")).length)
    ∧ (Ex.i2 ∈ ContributionAdmin.goodImages [Ex.i1, Ex.i2, Ex.i3] Ex.c2
        ↔ Ex.i2 ∈ [Ex.i1, Ex.i2, Ex.i3] ∧ Ex.i2.contribution = Ex.c2.ID
          ∧ Ex.i2.label = "good") :=
  ⟨(images_good_count_characterization [Ex.i1, Ex.i2, Ex.i3] Ex.c2).1,
   (images_good_count_characterization [Ex.i1, Ex.i2, Ex.i3] Ex.c2).2 Ex.i2⟩

end Tirtha

namespace Tirtha

/-- Sums of pointwise sums of naturals over a list split. -/
theorem sum_map_add (l : List α) (f g : α → Nat) :
    (l.map (fun a => f a + g a)).sum = (l.map f).sum + (l.map g).sum := by
  induction l with
  | nil => rfl
  | cons a l ih => simp only [List.map_cons, List.sum_cons, ih]; omega

/-- Over a contribution table with pairwise-distinct identifiers, the sum
of the one-image indicator across the contributions satisfying `p` is one
exactly when some contribution with identifier `x` satisfies `p`. -/
theorem sum_indicator_eq_any (p : Contribution → Bool) (x : String) :
    ∀ cs : List Contribution, (cs.map Contribution.ID).Nodup →
    ((cs.filter p).map (fun c => if x == c.ID then 1 else 0)).sum
      = if cs.any (fun c => c.ID == x && p c) then 1 else 0 := by
  intro cs
  induction cs with
  | nil => intro _; rfl
  | cons c cs ih =>
    intro hnd
    rw [List.map_cons, List.nodup_cons] at hnd
    obtain ⟨hnotin, hnd2⟩ := hnd
    rw [List.filter_cons, List.any_cons]
    cases hp : p c with
    | false =>
      rw [if_neg (by simp [hp]), Bool.and_false, Bool.false_or]
      exact ih hnd2
    | true =>
      rw [if_pos (by simp [hp]), List.map_cons, List.sum_cons, Bool.and_true]
      cases hcx : (c.ID == x) with
      | false =>
        have hxc : (x == c.ID) = false := by
          cases hxc2 : (x == c.ID) with
          | false => rfl
          | true =>
            rw [beq_iff_eq] at hxc2
            rw [hxc2, beq_self_eq_true] at hcx
            exact absurd hcx (by simp)
        rw [if_neg (by simp [hxc]), Bool.false_or, Nat.zero_add]
        exact ih hnd2
      | true =>
        rw [beq_iff_eq] at hcx
        have hzero :
            ((cs.filter p).map (fun c2 => if x == c2.ID then 1 else 0)).sum
              = 0 := by
          apply List.sum_eq_zero
          intro y hy
          rw [List.mem_map] at hy
          obtain ⟨c2, hc2, hv⟩ := hy
          rw [List.mem_filter] at hc2
          have hne : ¬ (x == c2.ID) = true := by
            rw [beq_iff_eq]
            intro he
            rw [← hcx] at he
            exact hnotin (he ▸ List.mem_map_of_mem Contribution.ID hc2.1)
          rw [← hv, if_neg hne]
        rw [hzero, if_pos (by rw [beq_iff_eq]; exact hcx.symm), Bool.true_or]
        rfl

/-- The relational join count decomposes over contributions: counting the
images whose contribution satisfies `p` equals summing, over the
contributions satisfying `p`, the count of each one's images — provided
contribution identifiers are pairwise distinct. -/
theorem countP_any_eq_sum (p : Contribution → Bool) :
    ∀ (imgs : List Image) (cs : List Contribution),
    (cs.map Contribution.ID).Nodup →
    imgs.countP (fun i => cs.any (fun c => c.ID == i.contribution && p c))
      = ((cs.filter p).map
          (fun c => imgs.countP (fun i => i.contribution == c.ID))).sum := by
  intro imgs
  induction imgs with
  | nil =>
    intro cs _
    rw [List.countP_nil]
    exact (List.sum_eq_zero (by simp [List.countP_nil])).symm
  | cons i imgs ih =>
    intro cs hnd
    rw [List.countP_cons]
    have hmap : (cs.filter p).map
        (fun c => (i :: imgs).countP (fun i2 => i2.contribution == c.ID))
        = (cs.filter p).map (fun c =>
            imgs.countP (fun i2 => i2.contribution == c.ID)
              + if i.contribution == c.ID then 1 else 0) := by
      apply List.map_congr_left
      intro c _
      rw [List.countP_cons]
    rw [hmap, sum_map_add, ih cs hnd,
      sum_indicator_eq_any p i.contribution cs hnd]

/-- Claim C9: the displayed image totals decompose over contributions —
for every mesh, `MeshAdmin.image_count` equals the sum over the mesh's
contributions of `ContributionAdmin.image_count`, and for every
contributor, `ContributorAdmin.image_count` equals the sum over the
contributor's contributions of `ContributionAdmin.image_count` — provided
contribution identifiers are pairwise distinct (they are a primary key). -/
theorem image_count_decomposes (imgs : List Image) (cs : List Contribution)
    (hnd : (cs.map Contribution.ID).Nodup) :
    (∀ m : Mesh, MeshAdmin.image_count imgs cs m
      = ((cs.filter (fun c => c.mesh == m.ID)).map
          (fun c => ContributionAdmin.image_count imgs c)).sum)
    ∧ (∀ t : Contributor, ContributorAdmin.image_count imgs cs t
      = ((cs.filter (fun c => c.contributor == t.ID)).map
          (fun c => ContributionAdmin.image_count imgs c)).sum) := by
  constructor
  · intro m
    have h := countP_any_eq_sum (fun c => c.mesh == m.ID) imgs cs hnd
    simp only [List.countP_eq_length_filter] at h
    exact h
  · intro t
    have h := countP_any_eq_sum (fun c => c.contributor == t.ID) imgs cs hnd
    simp only [List.countP_eq_length_filter] at h
    exact h

/-- Claim C9 witness: the decomposition at a concrete table of three
images over two contributions of one mesh and one contributor. -/
theorem image_count_decomposes_witness :
    ([Ex.c1, Ex.c2].map Contribution.ID).Nodup
    ∧ MeshAdmin.image_count [Ex.i1, Ex.i2, Ex.i3] [Ex.c1, Ex.c2] Ex.m1
      = (([Ex.c1, Ex.c2].filter (fun c => c.mesh == Ex.m1.ID)).map
          (fun c => ContributionAdmin.image_count [Ex.i1, Ex.i2, Ex.i3] c)).sum
    ∧ ContributorAdmin.image_count [Ex.i1, Ex.i2, Ex.i3] [Ex.c1, Ex.c2] Ex.t1
      = (([Ex.c1, Ex.c2].filter (fun c => c.contributor == Ex.t1.ID)).map
          (fun c => ContributionAdmin.image_count [Ex.i1, Ex.i2, Ex.i3] c)).sum :=
  ⟨by decide,
   (image_count_decomposes [Ex.i1, Ex.i2, Ex.i3] [Ex.c1, Ex.c2] (by decide)).1 Ex.m1,
   (image_count_decomposes [Ex.i1, Ex.i2, Ex.i3] [Ex.c1, Ex.c2] (by decide)).2 Ex.t1⟩

end Tirtha

namespace Tirtha
namespace RunSM

/-- A pointwise predicate-preserving map keeps the filtered length. -/
theorem length_filter_map_eq (l : List β) (f : β → β) (p : β → Bool)
    (h : ∀ x ∈ l, p (f x) = p x) :
    ((l.map f).filter p).length = (l.filter p).length := by
  induction l with
  | nil => rfl
  | cons a l ih =>
    rw [List.map_cons, List.filter_cons, List.filter_cons,
      h a (List.mem_cons_self a l)]
    have ih2 := ih (fun x hx => h x (List.mem_cons_of_mem a hx))
    cases hp : p a with
    | false => simpa using ih2
    | true => simpa using ih2

/-- A pointwise predicate-decreasing map cannot grow the filtered length. -/
theorem length_filter_map_le (l : List β) (f : β → β) (p : β → Bool)
    (h : ∀ x ∈ l, p (f x) = true → p x = true) :
    ((l.map f).filter p).length ≤ (l.filter p).length := by
  induction l with
  | nil => exact Nat.le_refl 0
  | cons a l ih =>
    rw [List.map_cons, List.filter_cons, List.filter_cons]
    have ih2 := ih (fun x hx => h x (List.mem_cons_of_mem a hx))
    cases hpf : p (f a) with
    | false =>
      rw [if_neg (by simp [hpf])]
      cases hp : p a with
      | false =>
        rw [if_neg (by simp [hp])]
        exact ih2
      | true =>
        rw [if_pos (by simp [hp])]
        simp only [List.length_cons]
        omega
    | true =>
      rw [if_pos (by simp [hpf]),
        if_pos (by simp [h a (List.mem_cons_self a l) hpf])]
      simp only [List.length_cons]
      omega

/-- The status setter never changes a run's identifier. -/
theorem statusSetter_ID (rid : Nat) (s : RStatus) (x : RunRec) :
    (statusSetter rid s x).ID = x.ID := by
  unfold statusSetter
  split <;> rfl

/-- The status setter never changes a run's mesh. -/
theorem statusSetter_mesh (rid : Nat) (s : RStatus) (x : RunRec) :
    (statusSetter rid s x).mesh = x.mesh := by
  unfold statusSetter
  split <;> rfl

/-- Setting a status preserves well-formedness of the state. -/
theorem setStatus_wf (st : SMState) (rid : Nat) (s : RStatus) (h : wf st) :
    wf (setStatus st rid s) := by
  obtain ⟨hnd, hlt⟩ := h
  constructor
  · have : (st.runs.map (statusSetter rid s)).map RunRec.ID
        = st.runs.map RunRec.ID := by
      rw [List.map_map]
      exact List.map_congr_left (fun x _ => statusSetter_ID rid s x)
    exact this ▸ hnd
  · intro r hr
    have hr2 : r ∈ st.runs.map (statusSetter rid s) := hr
    rw [List.mem_map] at hr2
    obtain ⟨x, hx, he⟩ := hr2
    have hxlt := hlt x hx
    show r.ID < st.nextID
    rw [← he, statusSetter_ID]
    exact hxlt

/-- Setting an inactive status cannot grow the number of active runs of
any mesh. -/
theorem activeFor_setStatus_le (st : SMState) (rid : Nat) (s : RStatus)
    (hs : isActive s = false) (m : Nat) :
    activeFor (setStatus st rid s) m ≤ activeFor st m := by
  apply length_filter_map_le
  intro x _ hpx
  unfold statusSetter at hpx
  by_cases hx : (x.ID == rid) = true
  · rw [if_pos hx] at hpx
    simp only [hs, Bool.and_false] at hpx
    exact absurd hpx (by simp)
  · rw [if_neg hx] at hpx
    exact hpx

end RunSM
end Tirtha

namespace Tirtha
namespace RunSM

/-- Promoting the queued run found for `rid` to running preserves the
number of active runs of every mesh (identifiers are pairwise distinct). -/
theorem activeFor_setStatus_running (st : SMState) (rid : Nat)
    (hnd : (st.runs.map RunRec.ID).Nodup) (r : RunRec)
    (hfind : st.runs.find? (fun x => x.ID == rid) = some r)
    (hq : r.status = .queued) (m : Nat) :
    activeFor (setStatus st rid .running) m = activeFor st m := by
  apply length_filter_map_eq
  intro x hx
  unfold statusSetter
  by_cases hxid : (x.ID == rid) = true
  · rw [if_pos hxid]
    have hrmem : r ∈ st.runs := List.mem_of_find?_eq_some hfind
    have hrid := List.find?_some hfind
    have hxr : x = r := by
      apply List.inj_on_of_nodup_map hnd hx hrmem
      rw [beq_iff_eq] at hxid hrid
      rw [hxid, hrid]
    subst hxr
    rw [hq]
    rfl
  · rw [if_neg hxid]

/-- When an active run exists for the mesh, `createRun` fails with
`ConflictError` and leaves the state unchanged. -/
theorem createRun_conflict (sel : Nat → List Nat) (st : SMState) (m : Nat)
    (h : 0 < activeFor st m) :
    createRun sel st m = (st, .error .ConflictError) := by
  have hany : st.runs.any (fun r => r.mesh == m && isActive r.status) = true := by
    rw [List.any_eq_true]
    have hne : st.runs.filter (fun r => r.mesh == m && isActive r.status) ≠ [] :=
      List.ne_nil_of_length_pos h
    obtain ⟨x, hx⟩ := List.exists_mem_of_ne_nil _ hne
    rw [List.mem_filter] at hx
    exact ⟨x, hx.1, hx.2⟩
  unfold createRun
  rw [if_pos hany]

/-- When no active run exists for the mesh and the selector output is
nonempty, `createRun` persists a fresh queued run and returns its
identifier. -/
theorem createRun_ok (sel : Nat → List Nat) (st : SMState) (m : Nat)
    (h0 : activeFor st m = 0) (hsel : sel m ≠ []) :
    createRun sel st m
      = ({ runs := ⟨st.nextID, m, .queued, sel m⟩ :: st.runs,
           nextID := st.nextID + 1 }, .ok st.nextID) := by
  have hany : st.runs.any (fun r => r.mesh == m && isActive r.status) = false := by
    rw [List.any_eq_false]
    have hf : st.runs.filter (fun r => r.mesh == m && isActive r.status) = [] :=
      List.length_eq_zero.mp h0
    intro x hxmem
    exact (List.filter_eq_nil_iff.mp hf) x hxmem
  unfold createRun
  rw [if_neg (by simp [hany]), if_neg hsel]

end RunSM
end Tirtha

namespace Tirtha
namespace RunSM

/-- Persisting a fresh queued run preserves the invariant and
well-formedness when the mesh had no active run. -/
theorem create_state_inv (sel : Nat → List Nat) (st : SMState) (m : Nat)
    (hact : atMostOneActive st) (hwf : wf st)
    (h0 : activeFor st m = 0) :
    atMostOneActive
      ({ runs := ⟨st.nextID, m, .queued, sel m⟩ :: st.runs,
         nextID := st.nextID + 1 } : SMState)
    ∧ wf ({ runs := ⟨st.nextID, m, .queued, sel m⟩ :: st.runs,
            nextID := st.nextID + 1 } : SMState) := by
  constructor
  · intro m2
    show (List.filter (fun r => r.mesh == m2 && isActive r.status)
      (⟨st.nextID, m, .queued, sel m⟩ :: st.runs)).length ≤ 1
    rw [List.filter_cons]
    by_cases hm : m = m2
    · subst hm
      rw [if_pos (by simp [isActive])]
      have h0x : (st.runs.filter
          (fun r => r.mesh == m && isActive r.status)).length = 0 := h0
      simp only [List.length_cons]
      omega
    · rw [if_neg (by simp [isActive, hm])]
      exact hact m2
  · constructor
    · show (List.map RunRec.ID (⟨st.nextID, m, .queued, sel m⟩ :: st.runs)).Nodup
      rw [List.map_cons, List.nodup_cons]
      refine ⟨?_, hwf.1⟩
      intro hmem
      rw [List.mem_map] at hmem
      obtain ⟨x, hx, he⟩ := hmem
      have hlt := hwf.2 x hx
      have he2 : x.ID = st.nextID := he
      omega
    · intro r hr
      show r.ID < st.nextID + 1
      rcases List.mem_cons.mp hr with he | hmem
      · rw [he]
        exact Nat.lt_succ_self st.nextID
      · have := hwf.2 r hmem
        omega

/-- Every operation of the Run State Machine preserves the
at-most-one-active-run invariant together with well-formedness. -/
theorem applyOp_preserves (sel : Nat → List Nat) (st : SMState) (op : Op)
    (h : atMostOneActive st ∧ wf st) :
    atMostOneActive (applyOp sel st op) ∧ wf (applyOp sel st op) := by
  obtain ⟨hact, hwf⟩ := h
  cases op with
  | create m =>
    show atMostOneActive (createRun sel st m).1 ∧ wf (createRun sel st m).1
    by_cases hg : st.runs.any (fun r => r.mesh == m && isActive r.status) = true
    · unfold createRun
      rw [if_pos hg]
      exact ⟨hact, hwf⟩
    · have h0 : activeFor st m = 0 := by
        show (st.runs.filter (fun r => r.mesh == m && isActive r.status)).length = 0
        rw [List.length_eq_zero, List.filter_eq_nil_iff]
        intro x hx hpx
        exact hg (List.any_eq_true.mpr ⟨x, hx, hpx⟩)
      by_cases hs : sel m = []
      · unfold createRun
        rw [if_neg hg, if_pos hs]
        exact ⟨hact, hwf⟩
      · rw [createRun_ok sel st m h0 hs]
        exact create_state_inv sel st m hact hwf h0
  | toRunning rid =>
    show atMostOneActive (transitionToRunning st rid).1
      ∧ wf (transitionToRunning st rid).1
    unfold transitionToRunning
    cases hfind : st.runs.find? (fun r => r.ID == rid) with
    | none => exact ⟨hact, hwf⟩
    | some r =>
      cases hq : r.status with
      | queued =>
        simp only [hq]
        refine ⟨?_, setStatus_wf st rid .running hwf⟩
        intro m
        rw [activeFor_setStatus_running st rid hwf.1 r hfind hq m]
        exact hact m
      | running => simp only [hq]; exact ⟨hact, hwf⟩
      | succeeded => simp only [hq]; exact ⟨hact, hwf⟩
      | failed => simp only [hq]; exact ⟨hact, hwf⟩
  | markComplete rid =>
    show atMostOneActive (complete st rid).1 ∧ wf (complete st rid).1
    unfold complete
    cases hfind : st.runs.find? (fun r => r.ID == rid) with
    | none => exact ⟨hact, hwf⟩
    | some r =>
      cases hq : r.status with
      | queued => simp only [hq]; exact ⟨hact, hwf⟩
      | running =>
        simp only [hq]
        refine ⟨?_, setStatus_wf st rid .succeeded hwf⟩
        intro m
        exact Nat.le_trans (activeFor_setStatus_le st rid .succeeded rfl m)
          (hact m)
      | succeeded => simp only [hq]; exact ⟨hact, hwf⟩
      | failed => simp only [hq]; exact ⟨hact, hwf⟩
  | markFail rid =>
    show atMostOneActive (fail st rid).1 ∧ wf (fail st rid).1
    unfold fail
    cases hfind : st.runs.find? (fun r => r.ID == rid) with
    | none => exact ⟨hact, hwf⟩
    | some r =>
      cases hq : r.status with
      | queued =>
        simp only [hq]
        refine ⟨?_, setStatus_wf st rid .failed hwf⟩
        intro m
        exact Nat.le_trans (activeFor_setStatus_le st rid .failed rfl m)
          (hact m)
      | running =>
        simp only [hq]
        refine ⟨?_, setStatus_wf st rid .failed hwf⟩
        intro m
        exact Nat.le_trans (activeFor_setStatus_le st rid .failed rfl m)
          (hact m)
      | succeeded => simp only [hq]; exact ⟨hact, hwf⟩
      | failed => simp only [hq]; exact ⟨hact, hwf⟩

end RunSM
end Tirtha

namespace Tirtha
namespace RunSM

/-- Invariant and well-formedness are preserved along any operation
sequence. -/
theorem applyOps_preserves (sel : Nat → List Nat) :
    ∀ (ops : List Op) (st : SMState),
    atMostOneActive st ∧ wf st →
    atMostOneActive (applyOps sel st ops) ∧ wf (applyOps sel st ops) := by
  intro ops
  induction ops with
  | nil => intro st h; exact h
  | cons op ops ih =>
    intro st h
    exact ih (applyOp sel st op) (applyOp_preserves sel st op h)

/-- The empty initial state satisfies the invariant and is well formed. -/
theorem initState_inv : atMostOneActive initState ∧ wf initState :=
  ⟨fun _ => Nat.zero_le 1,
   List.nodup_nil, fun r hr => absurd hr (List.not_mem_nil r)⟩

/-- While a mesh holds an active run, every racing `createRun` fails with
`ConflictError` and the state stays put. -/
theorem race_all_conflict (sel : Nat → List Nat) (m : Nat) :
    ∀ (n : Nat) (st : SMState), 0 < activeFor st m →
    race sel st m n
      = (st, List.replicate n (Except.error SMError.ConflictError)) := by
  intro n
  induction n with
  | zero => intro st _; rfl
  | succ n ih =>
    intro st h
    have hstep : race sel st m (n + 1)
        = ((race sel (createRun sel st m).1 m n).1,
           (createRun sel st m).2
             :: (race sel (createRun sel st m).1 m n).2) := rfl
    rw [hstep, createRun_conflict sel st m h, ih st h, List.replicate_succ]

end RunSM
end Tirtha

namespace Tirtha

/-- Claim C1: the Run State Machine keeps at most one active (queued or
running) run per mesh in every state reachable from the initial state by
any operation sequence, and when `n + 1` `createRun` calls race on one
mesh (linearized by the atomic per-mesh guard) starting from a state with
no active run for it and a nonempty eligible set, exactly the first
succeeds and every other call fails with `ConflictError`. -/
theorem createRun_mutual_exclusion :
    (∀ (sel : Nat → List Nat) (ops : List RunSM.Op),
      RunSM.atMostOneActive (RunSM.applyOps sel RunSM.initState ops))
    ∧ (∀ (sel : Nat → List Nat) (st : RunSM.SMState) (m n : Nat),
        RunSM.activeFor st m = 0 → sel m ≠ [] →
        (RunSM.race sel st m (n + 1)).2
          = Except.ok st.nextID
            :: List.replicate n (Except.error RunSM.SMError.ConflictError)) := by
  constructor
  · intro sel ops
    exact (RunSM.applyOps_preserves sel ops RunSM.initState RunSM.initState_inv).1
  · intro sel st m n h0 hsel
    have hok := RunSM.createRun_ok sel st m h0 hsel
    have h1 : 0 < RunSM.activeFor
        ({ runs := ⟨st.nextID, m, .queued, sel m⟩ :: st.runs,
           nextID := st.nextID + 1 } : RunSM.SMState) m := by
      show 0 < (List.filter (fun r => r.mesh == m && RunSM.isActive r.status)
        (⟨st.nextID, m, .queued, sel m⟩ :: st.runs)).length
      rw [List.filter_cons, if_pos (by simp [RunSM.isActive])]
      simp
    have hstep : (RunSM.race sel st m (n + 1)).2
        = (RunSM.createRun sel st m).2
            :: (RunSM.race sel (RunSM.createRun sel st m).1 m n).2 := rfl
    rw [hstep, hok, RunSM.race_all_conflict sel m n _ h1]

/-- Claim C1 witness: from the empty state, two racing `createRun` calls
for mesh `0` with a nonempty selector produce one success and one
`ConflictError`, and the state reached by replaying them keeps at most one
active run per mesh. -/
theorem createRun_mutual_exclusion_witness :
    RunSM.atMostOneActive
      (RunSM.applyOps Ex.sel1 RunSM.initState
        [RunSM.Op.create 0, RunSM.Op.create 0])
    ∧ RunSM.activeFor RunSM.initState 0 = 0
    ∧ Ex.sel1 0 ≠ []
    ∧ (RunSM.race Ex.sel1 RunSM.initState 0 2).2
        = Except.ok 0
          :: List.replicate 1 (Except.error RunSM.SMError.ConflictError) :=
  ⟨createRun_mutual_exclusion.1 Ex.sel1 [RunSM.Op.create 0, RunSM.Op.create 0],
   rfl, by decide,
   createRun_mutual_exclusion.2 Ex.sel1 RunSM.initState 0 1 rfl (by decide)⟩

end Tirtha
